import Mathlib

/-!
Verification of the change-detection / diff-collection engine and the client
event relay of `bevy_replicon`, as a shallow embedding.

The embedding follows `src/server/change_detection.rs` and
`src/network_event/client_event.rs`.  Machine integers are modelled as `Nat`
with explicit reduction modulo `2 ^ 32` where wraparound matters.  Code that
can panic (`expect`, `unwrap_or_else(panic)`, or an unsafe access that is
undefined when its precondition fails) is modelled in `Except Unit`, where
`.error ()` stands for the panic.
-/

namespace Replicon

/-! ## Ticks (bevy_ecs `Tick` / `ComponentTicks`, external collaborator)

`Tick::is_newer_than(self, last_run, this_run)` from bevy 0.11, on `u32`
values with wrapping subtraction. -/

def u32size : Nat := 4294967296

def CHECK_TICK_THRESHOLD : Nat := 518400000

def MAX_CHANGE_AGE : Nat := u32size - 1 - (2 * CHECK_TICK_THRESHOLD - 1)

abbrev Tick := Nat

/-- `self.wrapping_sub(other)` on `u32` tick values. -/
def Tick.relative_to (self other : Tick) : Nat :=
  (self % u32size + u32size - other % u32size) % u32size

/-- bevy's wraparound-safe freshness comparison: `self` was touched more
recently than `last_run`, as seen from `this_run`. -/
def Tick.is_newer_than (self last_run this_run : Tick) : Bool :=
  min (Tick.relative_to this_run last_run) MAX_CHANGE_AGE >
    min (Tick.relative_to this_run self) MAX_CHANGE_AGE

structure ComponentTicks where
  added : Tick
  changed : Tick
deriving DecidableEq, Repr

def ComponentTicks.last_changed_tick (t : ComponentTicks) : Tick := t.changed

/-- `ComponentTicks::is_changed` compares the last-changed tick. -/
def ComponentTicks.is_changed (t : ComponentTicks) (last_run this_run : Tick) : Bool :=
  Tick.is_newer_than t.changed last_run this_run

/-! ## Identifiers and marker components -/

abbrev ComponentId := Nat

abbrev ReplicationId := Nat

abbrev Entity := Nat

/-- The `Replication` marker component (a unit struct in the repository). -/
inductive Replication where
  | mk
deriving DecidableEq, Repr

/-- `RemovalTracker(pub HashMap<ReplicationId, Tick>)`; its only use in the
scanned code is `.0.iter()` over `(replication_id, tick)` pairs, so it is
modelled as the list of those pairs in iteration order. -/
structure RemovalTracker where
  entries : List (ReplicationId × Tick)
deriving DecidableEq, Repr

/-- The value stored at one storage location.  The scanned code dereferences
the erased pointer at three types: an opaque replicated payload, the
`Replication` marker, and the `RemovalTracker`. -/
inductive ComponentValue where
  | raw (addr : Nat)
  | marker (r : Replication)
  | tracker (t : RemovalTracker)
deriving DecidableEq, Repr

/-- The unsafe `deref::<Replication>`; a type mismatch is undefined behaviour
in the source and is modelled as `none` (treated as a panic by callers). -/
def ComponentValue.derefReplication : ComponentValue → Option Replication
  | .marker r => some r
  | _ => none

/-- The unsafe `deref::<RemovalTracker>`. -/
def ComponentValue.derefRemovalTracker : ComponentValue → Option RemovalTracker
  | .tracker t => some t
  | _ => none

/-! ## Storage: tables (columnar) and sparse sets -/

/-- One table column: per-row erased data plus change ticks. -/
structure Column where
  rows : List (ComponentValue × ComponentTicks)
deriving DecidableEq, Repr

def Column.get_data (c : Column) (row : Nat) : Option ComponentValue :=
  c.rows[row]?.map Prod.fst

def Column.get_ticks (c : Column) (row : Nat) : Option ComponentTicks :=
  c.rows[row]?.map Prod.snd

/-- A table: the columns it stores, keyed by component id. -/
abbrev Table := List (ComponentId × Column)

def Table.get_column (t : Table) (cid : ComponentId) : Option Column :=
  t.lookup cid

/-- A sparse set for one component: per-entity erased data plus ticks. -/
structure SparseSet where
  entries : List (Entity × ComponentValue × ComponentTicks)
deriving DecidableEq, Repr

def SparseSet.get (s : SparseSet) (e : Entity) : Option ComponentValue :=
  (s.entries.lookup e).map Prod.fst

def SparseSet.get_ticks (s : SparseSet) (e : Entity) : Option ComponentTicks :=
  (s.entries.lookup e).map Prod.snd

/-! ## Archetypes and the world -/

inductive StorageType where
  | table
  | sparseSet
deriving DecidableEq, Repr

structure ArchetypeEntity where
  entity : Entity
  table_row : Nat
deriving DecidableEq, Repr

/-- A storage partition: which components it holds (with their storage type),
which entities live in it, and which table backs it.  `ArchetypeId::EMPTY`
and `ArchetypeId::INVALID` are the two reserved ids. -/
structure Archetype where
  id : Nat
  components : List (ComponentId × StorageType)
  entities : List ArchetypeEntity
  table_id : Nat
deriving DecidableEq, Repr

def ARCHETYPE_EMPTY : Nat := 0

def ARCHETYPE_INVALID : Nat := u32size - 1

def Archetype.contains (a : Archetype) (cid : ComponentId) : Bool :=
  (a.components.lookup cid).isSome

def Archetype.get_storage_type (a : Archetype) (cid : ComponentId) : Option StorageType :=
  a.components.lookup cid

/-- `archetype.components()`: iteration over the component ids. -/
def Archetype.componentIds (a : Archetype) : List ComponentId :=
  a.components.map Prod.fst

/-- The read-only view of the world that `collect_candidates` consumes:
archetypes, table storage, sparse-set storage, and the `ComponentId`
registered for `RemovalTracker`. -/
structure World where
  archetypes : List Archetype
  tables : List (Nat × Table)
  sparse_sets : List (ComponentId × SparseSet)
  removal_tracker_id : ComponentId
deriving DecidableEq, Repr

/-! ## Replication rules (registry, external collaborator) -/

/-- The part of `ReplicationInfo` the scanned code reads: the id of the
per-entity `Ignored<C>` marker component. -/
structure ReplicationInfo where
  ignored_id : ComponentId
deriving DecidableEq, Repr

structure ReplicationRules where
  marker_id : ComponentId
  rules : List (ComponentId × ReplicationId × ReplicationInfo)
deriving DecidableEq, Repr

def ReplicationRules.get_marker_id (r : ReplicationRules) : ComponentId :=
  r.marker_id

/-- `replication_rules.get(component_id)`. -/
def ReplicationRules.get (r : ReplicationRules) (cid : ComponentId) :
    Option (ReplicationId × ReplicationInfo) :=
  r.rules.lookup cid

/-! ## Candidates -/

structure ComponentChangeCandidate where
  replication_id : ReplicationId
  replication_info : ReplicationInfo
  component_ptr : ComponentValue
  component_ticks : ComponentTicks
deriving DecidableEq, Repr

structure ComponentRemovalCandidate where
  replication_id : ReplicationId
  tick : Tick
deriving DecidableEq, Repr

structure EntityCandidate where
  entity : Entity
  replication_component : Replication
  changed_component_candidates : List ComponentChangeCandidate
  removed_component_candidates : List ComponentRemovalCandidate
deriving DecidableEq, Repr

/-! ## The collection algorithm (`collect_candidates` and its closure) -/

/-- The closure `filter_component_candidate` from the source: yield a change
candidate for `component_id` if it is registered, not ignored for this
entity's archetype, and changed more recently than `oldest_client_tick`.
Reads go through the archetype's table or the world's sparse sets according
to the component's storage type; a failed `expect`/`unwrap_or_else(panic)`
is `.error ()`. -/
def filter_component_candidate (world : World) (replication_rules : ReplicationRules)
    (this_run oldest_client_tick : Tick) (archetype : Archetype) (table : Table)
    (archetype_entity : ArchetypeEntity) (component_id : ComponentId) :
    Except Unit (Option ComponentChangeCandidate) :=
  match replication_rules.get component_id with
  | none => .ok none
  | some (replication_id, replication_info) =>
    if archetype.contains replication_info.ignored_id then .ok none
    else
      match archetype.get_storage_type component_id with
      | none => .error ()
      | some StorageType.table =>
        match Table.get_column table component_id with
        | none => .error ()
        | some column =>
          match column.get_ticks archetype_entity.table_row with
          | none => .error ()
          | some component_ticks =>
            if component_ticks.is_changed oldest_client_tick this_run then
              match column.get_data archetype_entity.table_row with
              | none => .error ()
              | some component_ptr =>
                .ok (some ⟨replication_id, replication_info, component_ptr, component_ticks⟩)
            else .ok none
      | some StorageType.sparseSet =>
        match world.sparse_sets.lookup component_id with
        | none => .error ()
        | some sparse_set =>
          match sparse_set.get_ticks archetype_entity.entity with
          | none => .error ()
          | some component_ticks =>
            if component_ticks.is_changed oldest_client_tick this_run then
              match sparse_set.get archetype_entity.entity with
              | none => .error ()
              | some component_ptr =>
                .ok (some ⟨replication_id, replication_info, component_ptr, component_ticks⟩)
            else .ok none

/-- The `filter_map` over a removal tracker's entries: keep the entries whose
removal tick is newer than the bounding tick. -/
def removal_candidates_of (removal_tracker : RemovalTracker)
    (this_run oldest_client_tick : Tick) : List ComponentRemovalCandidate :=
  removal_tracker.entries.filterMap fun p =>
    if Tick.is_newer_than p.2 oldest_client_tick this_run then
      some ⟨p.1, p.2⟩
    else none

/-- Reading one entity's removal candidates: if the archetype holds the
`RemovalTracker` component its column is read (panicking if absent from the
table), otherwise the entity has no removals. -/
def entity_removals (world : World) (this_run oldest_client_tick : Tick)
    (archetype : Archetype) (table : Table) (archetype_entity : ArchetypeEntity) :
    Except Unit (List ComponentRemovalCandidate) :=
  if archetype.contains world.removal_tracker_id then
    match Table.get_column table world.removal_tracker_id with
    | none => .error ()
    | some column =>
      match column.get_data archetype_entity.table_row with
      | none => .error ()
      | some v =>
        match v.derefRemovalTracker with
        | none => .error ()
        | some removal_tracker =>
          .ok (removal_candidates_of removal_tracker this_run oldest_client_tick)
  else .ok []

/-- The `filter_map(filter_component_candidate).collect()` over the
archetype's component ids, in the `Except` monad. -/
def collect_components (f : ComponentId → Except Unit (Option ComponentChangeCandidate)) :
    List ComponentId → Except Unit (List ComponentChangeCandidate)
  | [] => .ok []
  | cid :: rest =>
    match f cid with
    | .error e => .error e
    | .ok o =>
      match collect_components f rest with
      | .error e => .error e
      | .ok cs =>
        .ok (match o with
             | some c => c :: cs
             | none => cs)

/-- The body of the per-entity loop: extract the `Replication` component from
the marker column, read the removal candidates, and filter the archetype's
components. -/
def entity_candidate (world : World) (replication_rules : ReplicationRules)
    (this_run oldest_client_tick : Tick) (archetype : Archetype) (table : Table)
    (archetype_entity : ArchetypeEntity) : Except Unit EntityCandidate :=
  match Table.get_column table replication_rules.get_marker_id with
  | none => .error ()
  | some column =>
    match column.get_data archetype_entity.table_row with
    | none => .error ()
    | some v =>
      match v.derefReplication with
      | none => .error ()
      | some replication_component =>
        match entity_removals world this_run oldest_client_tick archetype table
            archetype_entity with
        | .error e => .error e
        | .ok removal_candidates =>
          match collect_components
              (filter_component_candidate world replication_rules this_run
                oldest_client_tick archetype table archetype_entity)
              archetype.componentIds with
          | .error e => .error e
          | .ok component_candidates =>
            .ok ⟨archetype_entity.entity, replication_component,
                 component_candidates, removal_candidates⟩

/-- The per-archetype entity loop. -/
def collect_entities (world : World) (replication_rules : ReplicationRules)
    (this_run oldest_client_tick : Tick) (archetype : Archetype) (table : Table) :
    List ArchetypeEntity → Except Unit (List EntityCandidate)
  | [] => .ok []
  | ae :: rest =>
    match entity_candidate world replication_rules this_run oldest_client_tick
        archetype table ae with
    | .error e => .error e
    | .ok ec =>
      match collect_entities world replication_rules this_run oldest_client_tick
          archetype table rest with
      | .error e => .error e
      | .ok ecs => .ok (ec :: ecs)

/-- The archetype loop: look the archetype's table up (panicking if missing)
and process every entity of the archetype. -/
def collect_archetypes (world : World) (replication_rules : ReplicationRules)
    (this_run oldest_client_tick : Tick) :
    List Archetype → Except Unit (List EntityCandidate)
  | [] => .ok []
  | a :: rest =>
    match world.tables.lookup a.table_id with
    | none => .error ()
    | some table =>
      match collect_entities world replication_rules this_run oldest_client_tick
          a table a.entities with
      | .error e => .error e
      | .ok ecs =>
        match collect_archetypes world replication_rules this_run
            oldest_client_tick rest with
        | .error e => .error e
        | .ok ecs' => .ok (ecs ++ ecs')

/-- The archetype filter of `collect_candidates`: skip `ArchetypeId::EMPTY`
and `ArchetypeId::INVALID`, keep only archetypes containing the replication
marker. -/
def replicated_archetype (replication_rules : ReplicationRules) (a : Archetype) : Bool :=
  a.id != ARCHETYPE_EMPTY && a.id != ARCHETYPE_INVALID &&
    a.contains replication_rules.get_marker_id

/-- `collect_candidates`: one `EntityCandidate` per entity of every
replication-marked archetype. -/
def collect_candidates (world : World) (replication_rules : ReplicationRules)
    (this_run oldest_client_tick : Tick) : Except Unit (List EntityCandidate) :=
  collect_archetypes world replication_rules this_run oldest_client_tick
    (world.archetypes.filter (replicated_archetype replication_rules))

/-- The entities scanned by one call: those of the replication-marked
archetypes, in storage-iteration order. -/
def scanned_entities (world : World) (replication_rules : ReplicationRules) :
    List Entity :=
  (world.archetypes.filter (replicated_archetype replication_rules)).flatMap
    fun a => a.entities.map ArchetypeEntity.entity

/-- The change ticks stored for `cid` at this entity, through whichever
storage layout the archetype assigns to `cid`. -/
def stored_ticks (world : World) (archetype : Archetype) (table : Table)
    (archetype_entity : ArchetypeEntity) (cid : ComponentId) : Option ComponentTicks :=
  match archetype.get_storage_type cid with
  | none => none
  | some StorageType.table =>
    (Table.get_column table cid).bind fun col => col.get_ticks archetype_entity.table_row
  | some StorageType.sparseSet =>
    (world.sparse_sets.lookup cid).bind fun s => s.get_ticks archetype_entity.entity

/-! ## A concrete world, used by the witnesses below -/

def infoA : ReplicationInfo := ⟨5⟩

def infoB : ReplicationInfo := ⟨6⟩

def infoC : ReplicationInfo := ⟨7⟩

/-- Marker component id 1; three registered components: 2 (table storage),
3 (sparse-set storage), 4 (table storage, whose ignored marker is 7). -/
def exRules : ReplicationRules := ⟨1, [(2, 10, infoA), (3, 11, infoB), (4, 12, infoC)]⟩

def exTracker : RemovalTracker := ⟨[(10, 6), (11, 2)]⟩

def tableA : Table :=
  [(1, ⟨[(ComponentValue.marker .mk, ⟨1, 1⟩)]⟩),
   (2, ⟨[(ComponentValue.raw 42, ⟨1, 6⟩)]⟩),
   (4, ⟨[(ComponentValue.raw 44, ⟨1, 6⟩)]⟩),
   (7, ⟨[(ComponentValue.raw 0, ⟨1, 1⟩)]⟩),
   (8, ⟨[(ComponentValue.raw 45, ⟨1, 6⟩)]⟩),
   (9, ⟨[(ComponentValue.tracker exTracker, ⟨1, 1⟩)]⟩)]

def tableB : Table := [(2, ⟨[(ComponentValue.raw 50, ⟨1, 6⟩)]⟩)]

def tableD : Table :=
  [(1, ⟨[(ComponentValue.marker .mk, ⟨1, 1⟩)]⟩),
   (2, ⟨[(ComponentValue.raw 46, ⟨1, 2⟩)]⟩)]

def tableE : Table := [(1, ⟨[(ComponentValue.marker .mk, ⟨1, 1⟩)]⟩)]

/-- Replication-marked archetype holding entity 20, with a table component,
a sparse component, an ignored component, an unregistered component, and a
removal tracker. -/
def archA : Archetype :=
  ⟨100,
   [(1, .table), (2, .table), (3, .sparseSet), (4, .table), (7, .table), (8, .table),
    (9, .table)],
   [⟨20, 0⟩], 0⟩

/-- Unmarked archetype holding entity 21. -/
def archB : Archetype := ⟨101, [(2, .table)], [⟨21, 0⟩], 1⟩

/-- Marked archetype holding entity 24 with no removal tracker and no fresh
changes. -/
def archD : Archetype := ⟨102, [(1, .table), (2, .table)], [⟨24, 0⟩], 2⟩

/-- An archetype with the reserved id `ArchetypeId::EMPTY`, never scanned. -/
def archE : Archetype := ⟨0, [(1, .table)], [⟨22, 0⟩], 3⟩

def exWorld : World :=
  ⟨[archE, archA, archB, archD],
   [(0, tableA), (1, tableB), (2, tableD), (3, tableE)],
   [(3, ⟨[(20, ComponentValue.raw 43, ⟨1, 6⟩)]⟩)],
   9⟩

/-- The table-stored change candidate yielded for component 2 of entity 20. -/
def exCandA : ComponentChangeCandidate := ⟨10, infoA, .raw 42, ⟨1, 6⟩⟩

/-- The sparse-stored change candidate yielded for component 3 of entity 20. -/
def exCandB : ComponentChangeCandidate := ⟨11, infoB, .raw 43, ⟨1, 6⟩⟩

/-- The candidate row produced for entity 20. -/
def exEC : EntityCandidate := ⟨20, .mk, [exCandA, exCandB], [⟨10, 6⟩]⟩

/-- The empty candidate row produced for entity 24. -/
def exECD : EntityCandidate := ⟨24, .mk, [], []⟩

/-- The candidates `collect_candidates` yields on `exWorld` at
`this_run = 10`, `oldest_client_tick = 4`. -/
def exOut : List EntityCandidate := [exEC, exECD]

/-- `archA` with component 2 moved to sparse-set storage; same component
set, hence the same `contains` predicate. -/
def archAsparse : Archetype :=
  ⟨100,
   [(1, .table), (2, .sparseSet), (3, .sparseSet), (4, .table), (7, .table), (8, .table),
    (9, .table)],
   [⟨20, 0⟩], 0⟩

/-- A world storing component 2 of entity 20 in a sparse set, with the same
payload and ticks as `exWorld`'s table column. -/
def exWorldSparse : World :=
  ⟨[archAsparse], [], [(2, ⟨[(20, ComponentValue.raw 42, ⟨1, 6⟩)]⟩)], 9⟩

/-! ## Helper lemmas about the collection pipeline -/

/-- Collapse a fallible filter result to its yielded candidate. -/
def okJoin (r : Except Unit (Option ComponentChangeCandidate)) :
    Option ComponentChangeCandidate :=
  match r with
  | .ok o => o
  | .error _ => none

theorem collect_components_ok_eq
    (f : ComponentId → Except Unit (Option ComponentChangeCandidate)) :
    ∀ (l : List ComponentId) (cs : List ComponentChangeCandidate),
      collect_components f l = .ok cs →
      cs = l.filterMap (fun cid => okJoin (f cid))
  | [], cs, h => by
    simp only [collect_components] at h
    cases h
    simp
  | cid :: rest, cs, h => by
    simp only [collect_components] at h
    cases hf : f cid with
    | error e => rw [hf] at h; cases h
    | ok o =>
      rw [hf] at h
      cases hr : collect_components f rest with
      | error e => rw [hr] at h; cases h
      | ok cs' =>
        rw [hr] at h
        have ih := collect_components_ok_eq f rest cs' hr
        cases o with
        | some c =>
          cases h
          simp [List.filterMap_cons, hf, okJoin, ih]
        | none =>
          cases h
          simp [List.filterMap_cons, hf, okJoin, ih]

theorem filter_component_candidate_sound
    {world : World} {rules : ReplicationRules} {this_run oldest_client_tick : Tick}
    {archetype : Archetype} {table : Table} {ae : ArchetypeEntity}
    {cid : ComponentId} {c : ComponentChangeCandidate}
    (h : filter_component_candidate world rules this_run oldest_client_tick
        archetype table ae cid = .ok (some c)) :
    rules.get cid = some (c.replication_id, c.replication_info) ∧
    archetype.contains c.replication_info.ignored_id = false ∧
    c.component_ticks.is_changed oldest_client_tick this_run = true ∧
    stored_ticks world archetype table ae cid = some c.component_ticks := by
  unfold filter_component_candidate at h
  cases hg : rules.get cid with
  | none => rw [hg] at h; cases h
  | some p =>
    obtain ⟨rid, info⟩ := p
    rw [hg] at h
    dsimp only at h
    by_cases hig : archetype.contains info.ignored_id = true
    · rw [if_pos hig] at h; cases h
    · rw [if_neg hig] at h
      rw [Bool.not_eq_true] at hig
      cases hst : archetype.get_storage_type cid with
      | none => rw [hst] at h; cases h
      | some st =>
        rw [hst] at h
        cases st with
        | table =>
          dsimp only at h
          cases hcol : Table.get_column table cid with
          | none => rw [hcol] at h; cases h
          | some column =>
            rw [hcol] at h
            dsimp only at h
            cases hticks : column.get_ticks ae.table_row with
            | none => rw [hticks] at h; cases h
            | some ticks =>
              rw [hticks] at h
              dsimp only at h
              by_cases hch : ticks.is_changed oldest_client_tick this_run = true
              · rw [if_pos hch] at h
                cases hdata : column.get_data ae.table_row with
                | none => rw [hdata] at h; cases h
                | some v =>
                  rw [hdata] at h
                  cases h
                  exact ⟨rfl, hig, hch, by simp [stored_ticks, hst, hcol, hticks]⟩
              · rw [if_neg hch] at h; cases h
        | sparseSet =>
          dsimp only at h
          cases hss : world.sparse_sets.lookup cid with
          | none => rw [hss] at h; cases h
          | some sparse_set =>
            rw [hss] at h
            dsimp only at h
            cases hticks : sparse_set.get_ticks ae.entity with
            | none => rw [hticks] at h; cases h
            | some ticks =>
              rw [hticks] at h
              dsimp only at h
              by_cases hch : ticks.is_changed oldest_client_tick this_run = true
              · rw [if_pos hch] at h
                cases hdata : sparse_set.get ae.entity with
                | none => rw [hdata] at h; cases h
                | some v =>
                  rw [hdata] at h
                  cases h
                  exact ⟨rfl, hig, hch, by simp [stored_ticks, hst, hss, hticks]⟩
              · rw [if_neg hch] at h; cases h

theorem filter_component_candidate_complete
    {world : World} {rules : ReplicationRules} {this_run oldest_client_tick : Tick}
    {archetype : Archetype} {table : Table} {ae : ArchetypeEntity}
    {cid : ComponentId} {rid : ReplicationId} {info : ReplicationInfo}
    {ticks : ComponentTicks}
    (hreg : rules.get cid = some (rid, info))
    (hig : archetype.contains info.ignored_id = false)
    (hticks : stored_ticks world archetype table ae cid = some ticks)
    (hnew : ticks.is_changed oldest_client_tick this_run = true) :
    ∃ v, filter_component_candidate world rules this_run oldest_client_tick
        archetype table ae cid = .ok (some ⟨rid, info, v, ticks⟩) := by
  unfold stored_ticks at hticks
  cases hst : archetype.get_storage_type cid with
  | none => rw [hst] at hticks; cases hticks
  | some st =>
    rw [hst] at hticks
    cases st with
    | table =>
      cases hcol : Table.get_column table cid with
      | none => rw [hcol] at hticks; cases hticks
      | some column =>
        rw [hcol] at hticks
        simp only [Option.some_bind] at hticks
        cases hrow : column.rows[ae.table_row]? with
        | none => simp [Column.get_ticks, hrow] at hticks
        | some p =>
          have hticks' : p.2 = ticks := by
            simpa [Column.get_ticks, hrow] using hticks
          refine ⟨p.1, ?_⟩
          unfold filter_component_candidate
          rw [hreg]
          simp only [hig, Bool.false_eq_true, if_false, hst]
          rw [hcol]
          simp [Column.get_ticks, Column.get_data, hrow, hticks', hnew]
    | sparseSet =>
      cases hss : world.sparse_sets.lookup cid with
      | none => rw [hss] at hticks; cases hticks
      | some sparse_set =>
        rw [hss] at hticks
        simp only [Option.some_bind] at hticks
        cases hent : sparse_set.entries.lookup ae.entity with
        | none => simp [SparseSet.get_ticks, hent] at hticks
        | some p =>
          have hticks' : p.2 = ticks := by
            simpa [SparseSet.get_ticks, hent] using hticks
          refine ⟨p.1, ?_⟩
          unfold filter_component_candidate
          rw [hreg]
          simp only [hig, Bool.false_eq_true, if_false, hst]
          rw [hss]
          simp [SparseSet.get_ticks, SparseSet.get, hent, hticks', hnew]

theorem mem_removal_candidates_of {removal_tracker : RemovalTracker}
    {this_run oldest_client_tick : Tick} {rid : ReplicationId} {t : Tick} :
    (⟨rid, t⟩ : ComponentRemovalCandidate) ∈
        removal_candidates_of removal_tracker this_run oldest_client_tick ↔
      (rid, t) ∈ removal_tracker.entries ∧
        Tick.is_newer_than t oldest_client_tick this_run = true := by
  unfold removal_candidates_of
  rw [List.mem_filterMap]
  constructor
  · rintro ⟨⟨rid', t'⟩, hmem, hf⟩
    by_cases hn : Tick.is_newer_than t' oldest_client_tick this_run = true
    · rw [if_pos hn] at hf
      obtain ⟨rfl, rfl⟩ : rid' = rid ∧ t' = t := by
        constructor <;> cases hf <;> rfl
      exact ⟨hmem, hn⟩
    · rw [if_neg hn] at hf
      cases hf
  · rintro ⟨hmem, hn⟩
    exact ⟨(rid, t), hmem, by simp [hn]⟩

theorem entity_removals_absent {world : World} {this_run oldest_client_tick : Tick}
    {archetype : Archetype} {table : Table} {ae : ArchetypeEntity}
    (h : archetype.contains world.removal_tracker_id = false) :
    entity_removals world this_run oldest_client_tick archetype table ae = .ok [] := by
  unfold entity_removals
  simp [h]

theorem entity_removals_present {world : World} {this_run oldest_client_tick : Tick}
    {archetype : Archetype} {table : Table} {ae : ArchetypeEntity}
    {column : Column} {v : ComponentValue} {removal_tracker : RemovalTracker}
    (hc : archetype.contains world.removal_tracker_id = true)
    (hcol : Table.get_column table world.removal_tracker_id = some column)
    (hv : column.get_data ae.table_row = some v)
    (htr : v.derefRemovalTracker = some removal_tracker) :
    entity_removals world this_run oldest_client_tick archetype table ae =
      .ok (removal_candidates_of removal_tracker this_run oldest_client_tick) := by
  unfold entity_removals
  rw [if_pos hc, hcol]
  dsimp only
  rw [hv]
  dsimp only
  rw [htr]

theorem entity_candidate_ok {world : World} {rules : ReplicationRules}
    {this_run oldest_client_tick : Tick} {archetype : Archetype} {table : Table}
    {ae : ArchetypeEntity} {ec : EntityCandidate}
    (h : entity_candidate world rules this_run oldest_client_tick archetype table ae
        = .ok ec) :
    ec.entity = ae.entity ∧
    collect_components
        (filter_component_candidate world rules this_run oldest_client_tick
          archetype table ae) archetype.componentIds
      = .ok ec.changed_component_candidates ∧
    entity_removals world this_run oldest_client_tick archetype table ae
      = .ok ec.removed_component_candidates := by
  unfold entity_candidate at h
  cases hcol : Table.get_column table rules.get_marker_id with
  | none => rw [hcol] at h; cases h
  | some column =>
    rw [hcol] at h
    dsimp only at h
    cases hdata : column.get_data ae.table_row with
    | none => rw [hdata] at h; cases h
    | some v =>
      rw [hdata] at h
      dsimp only at h
      cases hrepl : v.derefReplication with
      | none => rw [hrepl] at h; cases h
      | some repl =>
        rw [hrepl] at h
        dsimp only at h
        cases hrem : entity_removals world this_run oldest_client_tick archetype
            table ae with
        | error e => rw [hrem] at h; cases h
        | ok removals =>
          rw [hrem] at h
          dsimp only at h
          cases hcc : collect_components
              (filter_component_candidate world rules this_run oldest_client_tick
                archetype table ae) archetype.componentIds with
          | error e => rw [hcc] at h; cases h
          | ok changes =>
            rw [hcc] at h
            cases h
            exact ⟨rfl, rfl, rfl⟩

/-! ### `Forall₂` plumbing for the two loops -/

theorem forall₂_mem_right {α β : Type} {R : α → β → Prop} {l₁ : List α} {l₂ : List β}
    (h : List.Forall₂ R l₁ l₂) {b : β} (hb : b ∈ l₂) : ∃ a ∈ l₁, R a b := by
  induction h with
  | nil => cases hb
  | cons hR hF ih =>
    rcases List.mem_cons.mp hb with rfl | hmem
    · exact ⟨_, List.mem_cons_self _ _, hR⟩
    · obtain ⟨a, ha, hr⟩ := ih hmem
      exact ⟨a, List.mem_cons_of_mem _ ha, hr⟩

theorem forall₂_mem_left {α β : Type} {R : α → β → Prop} {l₁ : List α} {l₂ : List β}
    (h : List.Forall₂ R l₁ l₂) {a : α} (ha : a ∈ l₁) : ∃ b ∈ l₂, R a b := by
  induction h with
  | nil => cases ha
  | cons hR hF ih =>
    rcases List.mem_cons.mp ha with rfl | hmem
    · exact ⟨_, List.mem_cons_self _ _, hR⟩
    · obtain ⟨b, hb, hr⟩ := ih hmem
      exact ⟨b, List.mem_cons_of_mem _ hb, hr⟩

theorem forall₂_map_eq {α β γ : Type} {R : α → β → Prop} {f : α → γ} {g : β → γ}
    (hfg : ∀ a b, R a b → g b = f a) {l₁ : List α} {l₂ : List β}
    (h : List.Forall₂ R l₁ l₂) : l₂.map g = l₁.map f := by
  induction h with
  | nil => rfl
  | cons hR hF ih => simp [hfg _ _ hR, ih]

theorem collect_entities_forall₂ {world : World} {rules : ReplicationRules}
    {this_run oldest_client_tick : Tick} {archetype : Archetype} {table : Table} :
    ∀ {aes : List ArchetypeEntity} {out : List EntityCandidate},
      collect_entities world rules this_run oldest_client_tick archetype table aes
        = .ok out →
      List.Forall₂
        (fun ae ec =>
          entity_candidate world rules this_run oldest_client_tick archetype table ae
            = .ok ec)
        aes out
  | [], out, h => by
    simp only [collect_entities] at h
    cases h
    exact .nil
  | ae :: rest, out, h => by
    simp only [collect_entities] at h
    cases hec : entity_candidate world rules this_run oldest_client_tick archetype
        table ae with
    | error e => rw [hec] at h; cases h
    | ok ec =>
      rw [hec] at h
      dsimp only at h
      cases hrest : collect_entities world rules this_run oldest_client_tick
          archetype table rest with
      | error e => rw [hrest] at h; cases h
      | ok ecs =>
        rw [hrest] at h
        cases h
        exact .cons hec (collect_entities_forall₂ hrest)

theorem collect_archetypes_forall₂ {world : World} {rules : ReplicationRules}
    {this_run oldest_client_tick : Tick} :
    ∀ {As : List Archetype} {out : List EntityCandidate},
      collect_archetypes world rules this_run oldest_client_tick As = .ok out →
      ∃ parts : List (List EntityCandidate),
        out = parts.flatten ∧
        List.Forall₂
          (fun a part => ∃ table, world.tables.lookup a.table_id = some table ∧
            collect_entities world rules this_run oldest_client_tick a table
              a.entities = .ok part)
          As parts
  | [], out, h => by
    simp only [collect_archetypes] at h
    cases h
    exact ⟨[], rfl, .nil⟩
  | a :: rest, out, h => by
    simp only [collect_archetypes] at h
    cases htab : world.tables.lookup a.table_id with
    | none => rw [htab] at h; cases h
    | some table =>
      rw [htab] at h
      dsimp only at h
      cases hents : collect_entities world rules this_run oldest_client_tick a table
          a.entities with
      | error e => rw [hents] at h; cases h
      | ok ecs =>
        rw [hents] at h
        dsimp only at h
        cases hrest : collect_archetypes world rules this_run oldest_client_tick
            rest with
        | error e => rw [hrest] at h; cases h
        | ok ecs' =>
          rw [hrest] at h
          cases h
          obtain ⟨parts, rfl, hparts⟩ := collect_archetypes_forall₂ hrest
          exact ⟨ecs :: parts, by simp, .cons ⟨table, htab, hents⟩ hparts⟩

theorem okJoin_eq_some {r : Except Unit (Option ComponentChangeCandidate)}
    {c : ComponentChangeCandidate} (h : okJoin r = some c) : r = .ok (some c) := by
  cases r with
  | error e => simp [okJoin] at h
  | ok o => simp only [okJoin] at h; rw [h]

theorem replicated_archetype_iff {rules : ReplicationRules} {a : Archetype} :
    replicated_archetype rules a = true ↔
      (a.id ≠ ARCHETYPE_EMPTY ∧ a.id ≠ ARCHETYPE_INVALID ∧
        a.contains rules.get_marker_id = true) := by
  simp [replicated_archetype, and_assoc]

/-- Every candidate in the output of `collect_candidates` comes from some
entity of a scanned (replication-marked) archetype, through a successful run
of the per-entity body. -/
theorem collect_candidates_mem_inv {world : World} {rules : ReplicationRules}
    {this_run oldest_client_tick : Tick} {out : List EntityCandidate}
    {ec : EntityCandidate}
    (hok : collect_candidates world rules this_run oldest_client_tick = .ok out)
    (hec : ec ∈ out) :
    ∃ archetype ∈ world.archetypes, replicated_archetype rules archetype = true ∧
      ∃ table, world.tables.lookup archetype.table_id = some table ∧
        ∃ ae ∈ archetype.entities,
          entity_candidate world rules this_run oldest_client_tick archetype table ae
            = .ok ec := by
  unfold collect_candidates at hok
  obtain ⟨parts, rfl, hparts⟩ := collect_archetypes_forall₂ hok
  obtain ⟨part, hpart, hin⟩ := List.mem_flatten.mp hec
  obtain ⟨a, hafil, table, htab, hents⟩ := forall₂_mem_right hparts hpart
  obtain ⟨ha, hrep⟩ := List.mem_filter.mp hafil
  obtain ⟨ae, hae, hcand⟩ := forall₂_mem_right (collect_entities_forall₂ hents) hin
  exact ⟨a, ha, hrep, table, htab, ae, hae, hcand⟩

/-- Conversely, every entity of a scanned archetype produces a candidate in
the output through a successful run of the per-entity body. -/
theorem collect_candidates_mem_of_scanned {world : World} {rules : ReplicationRules}
    {this_run oldest_client_tick : Tick} {out : List EntityCandidate}
    {archetype : Archetype} {ae : ArchetypeEntity}
    (hok : collect_candidates world rules this_run oldest_client_tick = .ok out)
    (ha : archetype ∈ world.archetypes)
    (hrep : replicated_archetype rules archetype = true)
    (hae : ae ∈ archetype.entities) :
    ∃ table, world.tables.lookup archetype.table_id = some table ∧
      ∃ ec ∈ out,
        entity_candidate world rules this_run oldest_client_tick archetype table ae
          = .ok ec := by
  unfold collect_candidates at hok
  obtain ⟨parts, rfl, hparts⟩ := collect_archetypes_forall₂ hok
  obtain ⟨part, hpart, table, htab, hents⟩ :=
    forall₂_mem_left hparts (List.mem_filter.mpr ⟨ha, hrep⟩)
  obtain ⟨ec, hec, hcand⟩ := forall₂_mem_left (collect_entities_forall₂ hents) hae
  exact ⟨table, htab, ec, List.mem_flatten.mpr ⟨part, hpart, hec⟩, hcand⟩

/-! ## Claim theorems -/

/-- C1: an attribute is yielded by `collect_candidates` as a change candidate
only if it is registered for replication, its ignored marker is absent from
the entity's archetype, and the change ticks read from storage — recorded
unchanged in the candidate — are strictly newer than the bounding tick by the
wraparound-safe comparison against the current tick; an attribute whose
last-changed tick is not newer is never yielded. -/
theorem collect_candidates_change_sound {world : World} {rules : ReplicationRules}
    {this_run oldest_client_tick : Tick} {out : List EntityCandidate}
    {ec : EntityCandidate} {c : ComponentChangeCandidate}
    (hok : collect_candidates world rules this_run oldest_client_tick = .ok out)
    (hec : ec ∈ out) (hc : c ∈ ec.changed_component_candidates) :
    c.component_ticks.is_changed oldest_client_tick this_run = true ∧
    ∃ archetype ∈ world.archetypes, replicated_archetype rules archetype = true ∧
      ∃ table, world.tables.lookup archetype.table_id = some table ∧
        ∃ ae ∈ archetype.entities, ae.entity = ec.entity ∧
          ∃ cid ∈ archetype.componentIds,
            rules.get cid = some (c.replication_id, c.replication_info) ∧
            archetype.contains c.replication_info.ignored_id = false ∧
            stored_ticks world archetype table ae cid = some c.component_ticks := by
  obtain ⟨a, ha, hrep, table, htab, ae, hae, hcand⟩ :=
    collect_candidates_mem_inv hok hec
  obtain ⟨hent, hcc, -⟩ := entity_candidate_ok hcand
  have hchanged := collect_components_ok_eq _ _ _ hcc
  rw [hchanged] at hc
  obtain ⟨cid, hcid, hjoin⟩ := List.mem_filterMap.mp hc
  have hfil := okJoin_eq_some hjoin
  obtain ⟨hreg, hig, hch, hst⟩ := filter_component_candidate_sound hfil
  exact ⟨hch, a, ha, hrep, table, htab, ae, hae, hent.symm, cid, hcid, hreg, hig, hst⟩

/-- C7: `collect_candidates` draws candidates exactly from the storage
partitions that carry the replication marker and are neither the empty nor
the invalid placeholder archetype; an entity that resides in no such
partition never contributes a candidate. -/
theorem collect_candidates_visits_marked {world : World} {rules : ReplicationRules}
    {this_run oldest_client_tick : Tick} {out : List EntityCandidate}
    {ec : EntityCandidate}
    (hok : collect_candidates world rules this_run oldest_client_tick = .ok out)
    (hec : ec ∈ out) :
    (∃ archetype ∈ world.archetypes,
      archetype.id ≠ ARCHETYPE_EMPTY ∧ archetype.id ≠ ARCHETYPE_INVALID ∧
      archetype.contains rules.get_marker_id = true ∧
      ∃ ae ∈ archetype.entities, ae.entity = ec.entity) ∧
    ∀ e : Entity,
      (∀ archetype ∈ world.archetypes, replicated_archetype rules archetype = true →
        ∀ ae ∈ archetype.entities, ae.entity ≠ e) →
      ec.entity ≠ e := by
  obtain ⟨a, ha, hrep, table, htab, ae, hae, hcand⟩ :=
    collect_candidates_mem_inv hok hec
  obtain ⟨hent, -, -⟩ := entity_candidate_ok hcand
  obtain ⟨hne, hni, hcont⟩ := replicated_archetype_iff.mp hrep
  refine ⟨⟨a, ha, hne, hni, hcont, ae, hae, hent.symm⟩, ?_⟩
  intro e hnone
  rw [hent]
  exact hnone a ha hrep ae hae

/-- The output's entity sequence is exactly the scanned entity sequence. -/
theorem collect_candidates_map_entities {world : World} {rules : ReplicationRules}
    {this_run oldest_client_tick : Tick} {out : List EntityCandidate}
    (hok : collect_candidates world rules this_run oldest_client_tick = .ok out) :
    out.map EntityCandidate.entity = scanned_entities world rules := by
  unfold collect_candidates at hok
  obtain ⟨parts, rfl, hparts⟩ := collect_archetypes_forall₂ hok
  have hmap : List.Forall₂
      (fun (a : Archetype) (part : List EntityCandidate) =>
        part.map EntityCandidate.entity = a.entities.map ArchetypeEntity.entity)
      (world.archetypes.filter (replicated_archetype rules)) parts := by
    refine hparts.imp ?_
    rintro a part ⟨table, htab, hents⟩
    exact forall₂_map_eq
      (R := fun ae ec =>
        entity_candidate world rules this_run oldest_client_tick a table ae = .ok ec)
      (fun ae ec h => (entity_candidate_ok h).1)
      (collect_entities_forall₂ hents)
  have hmaps :
      parts.map (fun part => part.map EntityCandidate.entity) =
        (world.archetypes.filter (replicated_archetype rules)).map
          (fun a => a.entities.map ArchetypeEntity.entity) :=
    forall₂_map_eq (fun a part h => h) hmap
  rw [List.map_flatten, hmaps, scanned_entities, List.flatMap_def]

/-- C10: `collect_candidates` returns exactly one `EntityCandidate` per
scanned entity — the sequence of output entities equals the sequence of
entities of the replication-marked archetypes, so candidates with empty
change and removal lists are never filtered out. -/
theorem collect_candidates_one_per_entity {world : World} {rules : ReplicationRules}
    {this_run oldest_client_tick : Tick} {out : List EntityCandidate}
    (hok : collect_candidates world rules this_run oldest_client_tick = .ok out) :
    out.map EntityCandidate.entity = scanned_entities world rules ∧
    out.length = (scanned_entities world rules).length := by
  have hflat := collect_candidates_map_entities hok
  refine ⟨hflat, ?_⟩
  have := congrArg List.length hflat
  rwa [List.length_map] at this

/-- C3: inside one call of `collect_candidates`, an entity whose removal
tracker is readable gets exactly the tracker entries whose removal tick is
strictly newer (wraparound-safe, relative to the current tick) than the
bounding tick as removal candidates; every other entry is excluded. -/
theorem collect_candidates_removal_iff {world : World} {rules : ReplicationRules}
    {this_run oldest_client_tick : Tick} {out : List EntityCandidate}
    {archetype : Archetype} {ae : ArchetypeEntity} {table : Table}
    {column : Column} {v : ComponentValue} {removal_tracker : RemovalTracker}
    (hok : collect_candidates world rules this_run oldest_client_tick = .ok out)
    (ha : archetype ∈ world.archetypes)
    (hrep : replicated_archetype rules archetype = true)
    (hae : ae ∈ archetype.entities)
    (htab : world.tables.lookup archetype.table_id = some table)
    (hc : archetype.contains world.removal_tracker_id = true)
    (hcol : Table.get_column table world.removal_tracker_id = some column)
    (hv : column.get_data ae.table_row = some v)
    (htr : v.derefRemovalTracker = some removal_tracker) :
    ∃ ec ∈ out, ec.entity = ae.entity ∧
      ec.removed_component_candidates =
        removal_candidates_of removal_tracker this_run oldest_client_tick ∧
      ∀ rid t,
        ((⟨rid, t⟩ : ComponentRemovalCandidate) ∈ ec.removed_component_candidates ↔
          ((rid, t) ∈ removal_tracker.entries ∧
            Tick.is_newer_than t oldest_client_tick this_run = true)) := by
  obtain ⟨table', htab', ec, hec, hcand⟩ :=
    collect_candidates_mem_of_scanned hok ha hrep hae
  rw [htab] at htab'
  cases htab'
  obtain ⟨hent, -, hrem⟩ := entity_candidate_ok hcand
  have hrem' := @entity_removals_present world this_run oldest_client_tick archetype
    table ae column v removal_tracker hc hcol hv htr
  rw [hrem'] at hrem
  have heq : ec.removed_component_candidates =
      removal_candidates_of removal_tracker this_run oldest_client_tick :=
    (Except.ok.inj hrem).symm
  refine ⟨ec, hec, hent, heq, ?_⟩
  intro rid t
  rw [heq]
  exact mem_removal_candidates_of

/-- C5: an entity of a replication-marked archetype that does not hold the
removal-tracker component is still processed: its candidate appears in the
output with an empty removal list, the removal read succeeds with `ok []`,
and its change candidates are still collected. -/
theorem collect_candidates_tracker_absent {world : World} {rules : ReplicationRules}
    {this_run oldest_client_tick : Tick} {out : List EntityCandidate}
    {archetype : Archetype} {ae : ArchetypeEntity}
    (hok : collect_candidates world rules this_run oldest_client_tick = .ok out)
    (ha : archetype ∈ world.archetypes)
    (hrep : replicated_archetype rules archetype = true)
    (hae : ae ∈ archetype.entities)
    (habs : archetype.contains world.removal_tracker_id = false) :
    ∃ ec ∈ out, ec.entity = ae.entity ∧
      ec.removed_component_candidates = [] ∧
      ∃ table, world.tables.lookup archetype.table_id = some table ∧
        entity_removals world this_run oldest_client_tick archetype table ae
          = .ok [] ∧
        collect_components
            (filter_component_candidate world rules this_run oldest_client_tick
              archetype table ae) archetype.componentIds
          = .ok ec.changed_component_candidates := by
  obtain ⟨table, htab, ec, hec, hcand⟩ :=
    collect_candidates_mem_of_scanned hok ha hrep hae
  obtain ⟨hent, hcc, hrem⟩ := entity_candidate_ok hcand
  have habs' := @entity_removals_absent world this_run oldest_client_tick archetype
    table ae habs
  rw [habs'] at hrem
  have heq : ec.removed_component_candidates = [] := (Except.ok.inj hrem).symm
  exact ⟨ec, hec, hent, heq, table, htab, habs', hcc⟩

/-- Modelled from the spec: "the chosen layout only affects access path, not
which candidates are yielded" — the candidate decision for one attribute as a
function of the registration, the ignored-marker state of the entity's
partition, and the stored payload and change ticks alone, with no reference
to a storage layout. -/
def layout_free_decision (rules : ReplicationRules) (this_run oldest_client_tick : Tick)
    (has_component : ComponentId → Bool) (cid : ComponentId)
    (v : ComponentValue) (ticks : ComponentTicks) : Option ComponentChangeCandidate :=
  match rules.get cid with
  | none => none
  | some (replication_id, replication_info) =>
    if has_component replication_info.ignored_id then none
    else if ticks.is_changed oldest_client_tick this_run then
      some ⟨replication_id, replication_info, v, ticks⟩
    else none

theorem filter_component_candidate_table_eval {world : World}
    {rules : ReplicationRules} {this_run oldest_client_tick : Tick}
    {archetype : Archetype} {table : Table} {ae : ArchetypeEntity}
    {cid : ComponentId} {col : Column} {v : ComponentValue} {ticks : ComponentTicks}
    (h1 : archetype.get_storage_type cid = some StorageType.table)
    (h2 : Table.get_column table cid = some col)
    (h3 : col.rows[ae.table_row]? = some (v, ticks)) :
    filter_component_candidate world rules this_run oldest_client_tick archetype
        table ae cid
      = .ok (layout_free_decision rules this_run oldest_client_tick
          archetype.contains cid v ticks) := by
  unfold filter_component_candidate layout_free_decision
  cases hg : rules.get cid with
  | none => rfl
  | some p =>
    obtain ⟨rid, info⟩ := p
    dsimp only
    by_cases hig : archetype.contains info.ignored_id = true
    · rw [if_pos hig, if_pos hig]
    · rw [if_neg hig, if_neg hig, h1]
      dsimp only
      rw [h2]
      dsimp only
      have hticks : col.get_ticks ae.table_row = some ticks := by
        simp [Column.get_ticks, h3]
      have hdata : col.get_data ae.table_row = some v := by
        simp [Column.get_data, h3]
      rw [hticks]
      dsimp only
      by_cases hch : ticks.is_changed oldest_client_tick this_run = true
      · rw [if_pos hch, if_pos hch, hdata]
      · rw [if_neg hch, if_neg hch]

theorem filter_component_candidate_sparse_eval {world : World}
    {rules : ReplicationRules} {this_run oldest_client_tick : Tick}
    {archetype : Archetype} {table : Table} {ae : ArchetypeEntity}
    {cid : ComponentId} {ss : SparseSet} {v : ComponentValue} {ticks : ComponentTicks}
    (h1 : archetype.get_storage_type cid = some StorageType.sparseSet)
    (h2 : world.sparse_sets.lookup cid = some ss)
    (h3 : ss.entries.lookup ae.entity = some (v, ticks)) :
    filter_component_candidate world rules this_run oldest_client_tick archetype
        table ae cid
      = .ok (layout_free_decision rules this_run oldest_client_tick
          archetype.contains cid v ticks) := by
  unfold filter_component_candidate layout_free_decision
  cases hg : rules.get cid with
  | none => rfl
  | some p =>
    obtain ⟨rid, info⟩ := p
    dsimp only
    by_cases hig : archetype.contains info.ignored_id = true
    · rw [if_pos hig, if_pos hig]
    · rw [if_neg hig, if_neg hig, h1]
      dsimp only
      rw [h2]
      dsimp only
      have hticks : ss.get_ticks ae.entity = some ticks := by
        simp [SparseSet.get_ticks, h3]
      have hdata : ss.get ae.entity = some v := by
        simp [SparseSet.get, h3]
      rw [hticks]
      dsimp only
      by_cases hch : ticks.is_changed oldest_client_tick this_run = true
      · rw [if_pos hch, if_pos hch, hdata]
      · rw [if_neg hch, if_neg hch]

/-- C4: the candidate decision does not depend on the backing storage layout.
If a table-stored attribute and a sparse-set-stored attribute have the same
registration, the same ignored-marker state, and the same stored payload and
change ticks, the two branches of `filter_component_candidate` return the
same result, and both refine the layout-free decision modelled from the
spec. -/
theorem filter_component_candidate_layout_independent
    {world₁ world₂ : World} {rules : ReplicationRules}
    {this_run oldest_client_tick : Tick}
    {a₁ a₂ : Archetype} {table₁ table₂ : Table} {ae₁ ae₂ : ArchetypeEntity}
    {cid : ComponentId} {col : Column} {ss : SparseSet}
    {v : ComponentValue} {ticks : ComponentTicks}
    (h1 : a₁.get_storage_type cid = some StorageType.table)
    (h2 : Table.get_column table₁ cid = some col)
    (h3 : col.rows[ae₁.table_row]? = some (v, ticks))
    (h4 : a₂.get_storage_type cid = some StorageType.sparseSet)
    (h5 : world₂.sparse_sets.lookup cid = some ss)
    (h6 : ss.entries.lookup ae₂.entity = some (v, ticks))
    (hsame : ∀ mid, a₁.contains mid = a₂.contains mid) :
    filter_component_candidate world₁ rules this_run oldest_client_tick a₁ table₁
        ae₁ cid
      = filter_component_candidate world₂ rules this_run oldest_client_tick a₂
          table₂ ae₂ cid ∧
    filter_component_candidate world₁ rules this_run oldest_client_tick a₁ table₁
        ae₁ cid
      = .ok (layout_free_decision rules this_run oldest_client_tick a₁.contains
          cid v ticks) := by
  have ht := @filter_component_candidate_table_eval world₁ rules this_run
    oldest_client_tick a₁ table₁ ae₁ cid col v ticks h1 h2 h3
  have hs := @filter_component_candidate_sparse_eval world₂ rules this_run
    oldest_client_tick a₂ table₂ ae₂ cid ss v ticks h4 h5 h6
  have hfun : a₁.contains = a₂.contains := funext hsame
  refine ⟨?_, ht⟩
  rw [ht, hs, hfun]

/-! ## Counting machinery for the exactly-once property -/

/-- Number of change candidates with replication id `rid` carried by `ec`. -/
def changed_with_rid (rid : ReplicationId) (ec : EntityCandidate) : Nat :=
  ec.changed_component_candidates.countP (fun c => c.replication_id == rid)

/-- Total number of (entity `e`, replication id `rid`) change candidates in
an output list. -/
def candidate_count (e : Entity) (rid : ReplicationId) : List EntityCandidate → Nat
  | [] => 0
  | ec :: rest =>
    (if ec.entity == e then changed_with_rid rid ec else 0) +
      candidate_count e rid rest

theorem candidate_count_eq {e : Entity} {rid : ReplicationId} :
    ∀ l : List EntityCandidate,
      candidate_count e rid l =
        ((l.filter (fun ec => ec.entity == e)).map (changed_with_rid rid)).sum
  | [] => rfl
  | ec :: rest => by
    rw [candidate_count, candidate_count_eq rest]
    cases h : ec.entity == e with
    | true => simp [List.filter_cons, h]
    | false => simp [List.filter_cons, h]

theorem countP_filterMap_getD {α β : Type} (p : β → Bool) (f : α → Option β) :
    ∀ l : List α,
      (l.filterMap f).countP p = l.countP (fun a => ((f a).map p).getD false)
  | [] => rfl
  | x :: xs => by
    cases hx : f x with
    | none =>
      simp [List.filterMap_cons, hx, List.countP_cons, countP_filterMap_getD p f xs]
    | some b =>
      cases hb : p b with
      | true =>
        simp [List.filterMap_cons, hx, List.countP_cons,
          countP_filterMap_getD p f xs, hb]
      | false =>
        simp [List.filterMap_cons, hx, List.countP_cons,
          countP_filterMap_getD p f xs, hb]

theorem countP_congr_mem {α : Type} {p q : α → Bool} :
    ∀ {l : List α}, (∀ a ∈ l, p a = q a) → l.countP p = l.countP q
  | [], _ => rfl
  | x :: xs, h => by
    simp only [List.countP_cons]
    rw [countP_congr_mem (fun a ha => h a (List.mem_cons_of_mem _ ha)),
      h x (List.mem_cons_self _ _)]

theorem filter_eq_singleton_of_countP_one {α : Type} {p : α → Bool} {b : α} :
    ∀ {l : List α}, l.countP p = 1 → b ∈ l → p b = true → l.filter p = [b]
  | [], h1, hb, hpb => absurd hb (List.not_mem_nil b)
  | x :: xs, h1, hb, hpb => by
    cases hx : p x with
    | true =>
      simp only [List.countP_cons, hx, if_true] at h1
      have hxs : xs.countP p = 0 := by omega
      have hfil : xs.filter p = [] := by
        rw [List.filter_eq_nil_iff]
        intro a ha
        have := List.countP_eq_zero.mp hxs a ha
        simp [this]
      rcases List.mem_cons.mp hb with rfl | hmem
      · simp [List.filter_cons, hx, hfil]
      · exact absurd hpb (by simpa using List.countP_eq_zero.mp hxs b hmem)
    | false =>
      simp only [List.countP_cons, hx, if_false, Nat.add_zero] at h1
      rcases List.mem_cons.mp hb with rfl | hmem
      · rw [hx] at hpb; cases hpb
      · simp [List.filter_cons, hx,
          filter_eq_singleton_of_countP_one h1 hmem hpb]

/-- C2: an attribute of a scanned entity that is registered, not ignored, and
whose stored change ticks are strictly newer (wraparound-safe) than the
bounding tick is yielded as a change candidate exactly once, provided the
component occurs once in its archetype, no other component of the archetype
maps to the same replication id, and the entity is scanned once. -/
theorem collect_candidates_change_exactly_once {world : World}
    {rules : ReplicationRules} {this_run oldest_client_tick : Tick}
    {out : List EntityCandidate} {archetype : Archetype} {table : Table}
    {ae : ArchetypeEntity} {cid : ComponentId} {rid : ReplicationId}
    {info : ReplicationInfo} {ticks : ComponentTicks}
    (hok : collect_candidates world rules this_run oldest_client_tick = .ok out)
    (ha : archetype ∈ world.archetypes)
    (hrep : replicated_archetype rules archetype = true)
    (hae : ae ∈ archetype.entities)
    (htab : world.tables.lookup archetype.table_id = some table)
    (hreg : rules.get cid = some (rid, info))
    (hig : archetype.contains info.ignored_id = false)
    (hticks : stored_ticks world archetype table ae cid = some ticks)
    (hnew : ticks.is_changed oldest_client_tick this_run = true)
    (hcid1 : archetype.componentIds.count cid = 1)
    (huniq : archetype.componentIds.all
      (fun x => match rules.get x with
        | none => true
        | some (rid', _) => rid' != rid || x == cid) = true)
    (hent1 : (scanned_entities world rules).count ae.entity = 1) :
    candidate_count ae.entity rid out = 1 := by
  obtain ⟨table', htab', ec, hec, hcand⟩ :=
    collect_candidates_mem_of_scanned hok ha hrep hae
  rw [htab] at htab'
  have hT : table = table' := Option.some.inj htab'
  subst hT
  obtain ⟨hent, hcc, -⟩ := entity_candidate_ok hcand
  have hchanged := collect_components_ok_eq _ _ _ hcc
  have hA : changed_with_rid rid ec = 1 := by
    rw [changed_with_rid, hchanged, countP_filterMap_getD]
    have hq : ∀ x ∈ archetype.componentIds,
        ((okJoin (filter_component_candidate world rules this_run oldest_client_tick
          archetype table ae x)).map (fun c => c.replication_id == rid)).getD false
          = (x == cid) := by
      intro x hx
      cases hj : okJoin (filter_component_candidate world rules this_run
          oldest_client_tick archetype table ae x) with
      | none =>
        by_cases hxc : x = cid
        · subst hxc
          obtain ⟨v, hf⟩ := filter_component_candidate_complete hreg hig hticks hnew
          rw [hf] at hj
          simp [okJoin] at hj
        · simp [hxc]
      | some c =>
        have hf := okJoin_eq_some hj
        obtain ⟨hreg', hig', hch', hst'⟩ := filter_component_candidate_sound hf
        by_cases hcr : c.replication_id = rid
        · have hall := List.all_eq_true.mp huniq x hx
          rw [hreg'] at hall
          dsimp only at hall
          rw [hcr] at hall
          simp only [bne_self_eq_false, Bool.false_or] at hall
          simp [hall, hcr]
        · have hxc : x ≠ cid := by
            intro hxcid
            subst hxcid
            rw [hreg] at hreg'
            exact hcr (Prod.mk.injEq .. ▸ Option.some.inj hreg').1.symm
          simp [hcr, hxc]
    rw [countP_congr_mem hq, ← List.count_eq_countP]
    exact hcid1
  have hmap := collect_candidates_map_entities hok
  have hBcount : out.countP (fun ec' => ec'.entity == ae.entity) = 1 := by
    have hco : (out.map EntityCandidate.entity).count ae.entity = 1 := by
      rw [hmap]; exact hent1
    rw [List.count_eq_countP, List.countP_map] at hco
    exact hco
  have hpb : (fun ec' => ec'.entity == ae.entity) ec = true := by simp [hent]
  have hfil := filter_eq_singleton_of_countP_one hBcount hec hpb
  rw [candidate_count_eq, hfil]
  simp [hA]

/-! ## The client event relay (`client_event.rs`)

Systems are modelled as pure functions over the resources they touch:
the per-client receive queues of the `RenetServer`, the local event queue,
and the `NetworkEntityMap`.  Serialization and deserialization are opaque
partial functions supplied by the external serialization library. -/

/-- `FromClient<T>`. -/
structure FromClient (T : Type) where
  client_id : Nat
  event : T
deriving DecidableEq, Repr

/-- Modelled from the spec: the reserved server client identity.  `SERVER_ID`
is declared in the `server` module, which is not among the scanned files;
only its role as a distinguished constant is used. -/
def SERVER_ID : Nat := 0

/-- The inner `while let Some(message) = server.receive_message(..)` loop of
`receiving_system`: deserialize each queued message; on success emit a
`FromClient` event, on failure report an error diagnostic
`(client_id, message)` and continue with the next message. -/
def receive_client_messages {T M : Type} (deser : M → Option T) (client_id : Nat) :
    List M → List (FromClient T) × List (Nat × M)
  | [] => ([], [])
  | m :: rest =>
    let r := receive_client_messages deser client_id rest
    match deser m with
    | some event => (⟨client_id, event⟩ :: r.1, r.2)
    | none => (r.1, (client_id, m) :: r.2)

/-- `receiving_system`: the loop over connected clients.  Returns the events
written to `Events<FromClient<T>>` and the reported error diagnostics. -/
def receiving_system {T M : Type} (deser : M → Option T) :
    List (Nat × List M) → List (FromClient T) × List (Nat × M)
  | [] => ([], [])
  | (client_id, msgs) :: rest =>
    let r := receive_client_messages deser client_id msgs
    let r' := receiving_system deser rest
    (r.1 ++ r'.1, r.2 ++ r'.2)

/-- `sending_system`: serialize every pending event and send the bytes on the
registered channel.  The source unwraps the serialization result with
`.expect("client event should be serializable")`, so a failure panics
(`.error ()`) instead of skipping the event. -/
def sending_system {T M : Type} (ser : T → Option M) : List T → Except Unit (List M)
  | [] => .ok []
  | e :: rest =>
    match ser e with
    | none => .error ()
    | some m =>
      match sending_system ser rest with
      | .error err => .error err
      | .ok ms => .ok (m :: ms)

/-- The bidirectional entity-identity map owned by a connection. -/
structure NetworkEntityMap where
  server_to_client : List (Entity × Entity)
  client_to_server : List (Entity × Entity)
deriving DecidableEq, Repr

/-- The client→server direction used when sending client events. -/
def NetworkEntityMap.to_server (m : NetworkEntityMap) : List (Entity × Entity) :=
  m.client_to_server

/-- `mapping_and_sending_system`: drain the event queue; for each event,
rewrite its entity references through `entity_map.to_server()` and only then
serialize (panicking on failure, as in the source) and send.  Returns the
sent messages together with the drained queue. -/
def mapping_and_sending_system {T M : Type}
    (map_entities : List (Entity × Entity) → T → T) (ser : T → Option M)
    (entity_map : NetworkEntityMap) : List T → Except Unit (List M × List T)
  | [] => .ok ([], [])
  | e :: rest =>
    let mapped := map_entities entity_map.to_server e
    match ser mapped with
    | none => .error ()
    | some m =>
      match mapping_and_sending_system map_entities ser entity_map rest with
      | .error err => .error err
      | .ok r => .ok (m :: r.1, r.2)

/-- `mapping_and_sending_reflect_system`: as above but the serializer is
built from the `AppTypeRegistry` (an opaque value of type `R` here). -/
def mapping_and_sending_reflect_system {T M R : Type}
    (map_entities : List (Entity × Entity) → T → T) (ser : R → T → Option M)
    (entity_map : NetworkEntityMap) (registry : R) :
    List T → Except Unit (List M × List T)
  | [] => .ok ([], [])
  | e :: rest =>
    let mapped := map_entities entity_map.to_server e
    match ser registry mapped with
    | none => .error ()
    | some m =>
      match mapping_and_sending_reflect_system map_entities ser entity_map registry
          rest with
      | .error err => .error err
      | .ok r => .ok (m :: r.1, r.2)

/-- `local_resending_system`: drain the local `T` queue and re-emit each
event as `FromClient<T>` tagged with `SERVER_ID` — no serializer and no
network resource are involved.  Returns the emitted events and the drained
queue. -/
def local_resending_system {T : Type} : List T → List (FromClient T) × List T
  | [] => ([], [])
  | e :: rest =>
    let r := local_resending_system rest
    (⟨SERVER_ID, e⟩ :: r.1, r.2)

theorem receive_client_messages_eq {T M : Type} (deser : M → Option T)
    (client_id : Nat) :
    ∀ msgs : List M,
      receive_client_messages deser client_id msgs
        = (msgs.filterMap (fun m => (deser m).map (fun ev => ⟨client_id, ev⟩)),
           msgs.filterMap (fun m =>
             match deser m with
             | some _ => none
             | none => some (client_id, m)))
  | [] => rfl
  | m :: rest => by
    simp only [receive_client_messages, receive_client_messages_eq deser client_id rest]
    cases hm : deser m with
    | some ev => simp [List.filterMap_cons, hm]
    | none => simp [List.filterMap_cons, hm]

theorem receiving_system_eq {T M : Type} (deser : M → Option T) :
    ∀ clients : List (Nat × List M),
      receiving_system deser clients
        = (clients.flatMap (fun p =>
             p.2.filterMap (fun m => (deser m).map (fun ev => ⟨p.1, ev⟩))),
           clients.flatMap (fun p =>
             p.2.filterMap (fun m =>
               match deser m with
               | some _ => none
               | none => some (p.1, m))))
  | [] => rfl
  | (client_id, msgs) :: rest => by
    simp only [receiving_system, receive_client_messages_eq,
      receiving_system_eq deser rest, List.flatMap_cons]

theorem sending_system_total {T M : Type} (ser : T → Option M) :
    ∀ events : List T, (∀ e ∈ events, (ser e).isSome = true) →
      sending_system ser events = .ok (events.filterMap ser)
  | [], _ => rfl
  | e :: rest, h => by
    obtain ⟨m, hm⟩ := Option.isSome_iff_exists.mp (h e (List.mem_cons_self _ _))
    simp only [sending_system, hm,
      sending_system_total ser rest (fun x hx => h x (List.mem_cons_of_mem _ hx)),
      List.filterMap_cons]

theorem mapping_and_sending_total {T M : Type}
    (map_entities : List (Entity × Entity) → T → T) (ser : T → Option M)
    (entity_map : NetworkEntityMap) :
    ∀ events : List T,
      (∀ e ∈ events, (ser (map_entities entity_map.to_server e)).isSome = true) →
      mapping_and_sending_system map_entities ser entity_map events
        = .ok (events.filterMap
            (fun e => ser (map_entities entity_map.to_server e)), [])
  | [], _ => rfl
  | e :: rest, h => by
    obtain ⟨m, hm⟩ := Option.isSome_iff_exists.mp (h e (List.mem_cons_self _ _))
    simp only [mapping_and_sending_system, hm,
      mapping_and_sending_total map_entities ser entity_map rest
        (fun x hx => h x (List.mem_cons_of_mem _ hx)),
      List.filterMap_cons]

theorem mapping_and_sending_reflect_total {T M R : Type}
    (map_entities : List (Entity × Entity) → T → T) (ser : R → T → Option M)
    (entity_map : NetworkEntityMap) (registry : R) :
    ∀ events : List T,
      (∀ e ∈ events,
        (ser registry (map_entities entity_map.to_server e)).isSome = true) →
      mapping_and_sending_reflect_system map_entities ser entity_map registry events
        = .ok (events.filterMap
            (fun e => ser registry (map_entities entity_map.to_server e)), [])
  | [], _ => rfl
  | e :: rest, h => by
    obtain ⟨m, hm⟩ := Option.isSome_iff_exists.mp (h e (List.mem_cons_self _ _))
    simp only [mapping_and_sending_reflect_system, hm,
      mapping_and_sending_reflect_total map_entities ser entity_map registry rest
        (fun x hx => h x (List.mem_cons_of_mem _ hx)),
      List.filterMap_cons]

/-- A serializer that fails exactly on event `0`. -/
def exSer : Nat → Option Nat := fun n => if n == 0 then none else some n

/-- A deserializer that fails exactly on messages `≥ 10`. -/
def exDeser : Nat → Option Nat := fun n => if 10 ≤ n then none else some n

/-- C6 counterexample: with a serializer that fails on the first event only,
the sending system panics (`.expect` in the source) and the second,
perfectly serializable event is never sent — a single serialization failure
is fatal to the sending system rather than skipped. -/
theorem sending_failure_not_skipped :
    sending_system exSer [0, 1] = .error () ∧ exSer 1 = some 1 :=
  ⟨rfl, rfl⟩

/-- C6 (amended): a deserialization failure of one received message is
recoverable — the failing message is skipped, a diagnostic is reported, and
the receiving system continues with the remaining messages of the same and
of other clients; the sending system sends every pending event whenever all
of them serialize (a serialization failure, by contrast, panics, as the
counterexample shows). -/
theorem event_error_handling {T M : Type} (deser : M → Option T)
    (clients : List (Nat × List M)) (ser : T → Option M) (events : List T)
    (hser : ∀ e ∈ events, (ser e).isSome = true) :
    (receiving_system deser clients).1
      = clients.flatMap (fun p =>
          p.2.filterMap (fun m => (deser m).map (fun ev => ⟨p.1, ev⟩))) ∧
    (receiving_system deser clients).2
      = clients.flatMap (fun p =>
          p.2.filterMap (fun m =>
            match deser m with
            | some _ => none
            | none => some (p.1, m))) ∧
    sending_system ser events = .ok (events.filterMap ser) := by
  refine ⟨?_, ?_, sending_system_total ser events hser⟩
  · rw [receiving_system_eq]
  · rw [receiving_system_eq]

/-- C8: for event types registered with entity-reference mapping, the relay
rewrites each drained event through the client→server direction
(`entity_map.to_server()`) of the network entity map and only then
serializes it, so the sent bytes encode the mapped (server-side) entity
identities; the queue is drained.  This holds for the plain and the
reflect-based sending systems. -/
theorem mapped_client_events_use_to_server {T M R : Type}
    (map_entities : List (Entity × Entity) → T → T) (ser : T → Option M)
    (serR : R → T → Option M) (entity_map : NetworkEntityMap) (registry : R)
    (events eventsR : List T)
    (h1 : ∀ e ∈ events, (ser (map_entities entity_map.to_server e)).isSome = true)
    (h2 : ∀ e ∈ eventsR,
      (serR registry (map_entities entity_map.to_server e)).isSome = true) :
    mapping_and_sending_system map_entities ser entity_map events
      = .ok (events.filterMap
          (fun e => ser (map_entities entity_map.to_server e)), []) ∧
    mapping_and_sending_reflect_system map_entities serR entity_map registry eventsR
      = .ok (eventsR.filterMap
          (fun e => serR registry (map_entities entity_map.to_server e)), []) :=
  ⟨mapping_and_sending_total map_entities ser entity_map events h1,
   mapping_and_sending_reflect_total map_entities serR entity_map registry eventsR h2⟩

/-- C9: when the server has authority, every locally-raised event is
converted into exactly one `FromClient` event that carries the unchanged
payload and the reserved `SERVER_ID` identity, and the local queue is left
empty afterwards; the system involves no serializer and no network resource
at all. -/
theorem local_resending_loopback {T : Type} (events : List T) :
    local_resending_system events
      = (events.map (fun e => (⟨SERVER_ID, e⟩ : FromClient T)), []) := by
  induction events with
  | nil => rfl
  | cons e rest ih => simp [local_resending_system, ih]

/-! ## Witnesses: each hypothesis-carrying claim theorem applied on the
concrete world -/

/-- Witness for C1: the table-stored candidate of entity 20 on `exWorld`. -/
theorem collect_candidates_change_sound_witness :
    exCandA.component_ticks.is_changed 4 10 = true ∧
    ∃ archetype ∈ exWorld.archetypes, replicated_archetype exRules archetype = true ∧
      ∃ table, exWorld.tables.lookup archetype.table_id = some table ∧
        ∃ ae ∈ archetype.entities, ae.entity = exEC.entity ∧
          ∃ cid ∈ archetype.componentIds,
            exRules.get cid = some (exCandA.replication_id, exCandA.replication_info) ∧
            archetype.contains exCandA.replication_info.ignored_id = false ∧
            stored_ticks exWorld archetype table ae cid = some exCandA.component_ticks :=
  @collect_candidates_change_sound exWorld exRules 10 4 exOut exEC exCandA rfl
    (by decide) (by decide)

/-- Witness for C2: component 2 of entity 20 is yielded exactly once. -/
theorem collect_candidates_change_exactly_once_witness :
    candidate_count 20 10 exOut = 1 :=
  @collect_candidates_change_exactly_once exWorld exRules 10 4 exOut archA tableA
    ⟨20, 0⟩ 2 10 infoA ⟨1, 6⟩ rfl (by decide) (by decide) (by decide) rfl rfl
    (by decide) rfl (by decide) (by decide) (by decide) (by decide)

/-- Witness for C3: entity 20's tracker entry at tick 6 is kept, the entry at
tick 2 is dropped. -/
theorem collect_candidates_removal_iff_witness :
    ∃ ec ∈ exOut, ec.entity = (⟨20, 0⟩ : ArchetypeEntity).entity ∧
      ec.removed_component_candidates = removal_candidates_of exTracker 10 4 ∧
      ∀ rid t,
        ((⟨rid, t⟩ : ComponentRemovalCandidate) ∈ ec.removed_component_candidates ↔
          ((rid, t) ∈ exTracker.entries ∧ Tick.is_newer_than t 4 10 = true)) :=
  @collect_candidates_removal_iff exWorld exRules 10 4 exOut archA ⟨20, 0⟩ tableA
    ⟨[(ComponentValue.tracker exTracker, ⟨1, 1⟩)]⟩ (.tracker exTracker) exTracker
    rfl (by decide) (by decide) (by decide) rfl rfl rfl rfl rfl

/-- Witness for C4: the same payload and ticks stored in a table column of
`exWorld` and in a sparse set of `exWorldSparse` yield the same decision. -/
theorem filter_component_candidate_layout_independent_witness :
    filter_component_candidate exWorld exRules 10 4 archA tableA ⟨20, 0⟩ 2
      = filter_component_candidate exWorldSparse exRules 10 4 archAsparse [] ⟨20, 0⟩ 2 ∧
    filter_component_candidate exWorld exRules 10 4 archA tableA ⟨20, 0⟩ 2
      = .ok (layout_free_decision exRules 10 4 archA.contains 2 (.raw 42) ⟨1, 6⟩) :=
  @filter_component_candidate_layout_independent exWorld exWorldSparse exRules 10 4
    archA archAsparse tableA [] ⟨20, 0⟩ ⟨20, 0⟩ 2
    ⟨[(ComponentValue.raw 42, ⟨1, 6⟩)]⟩ ⟨[(20, ComponentValue.raw 42, ⟨1, 6⟩)]⟩
    (.raw 42) ⟨1, 6⟩ rfl rfl rfl rfl rfl rfl
    (by
      intro mid
      simp only [Archetype.contains, archA, archAsparse, List.lookup]
      cases mid == 1 <;> cases mid == 2 <;> cases mid == 3 <;> cases mid == 4 <;>
        cases mid == 7 <;> cases mid == 8 <;> cases mid == 9 <;> rfl)

/-- Witness for C5: entity 24's archetype has no removal tracker and is still
processed with an empty removal list. -/
theorem collect_candidates_tracker_absent_witness :
    ∃ ec ∈ exOut, ec.entity = (⟨24, 0⟩ : ArchetypeEntity).entity ∧
      ec.removed_component_candidates = [] ∧
      ∃ table, exWorld.tables.lookup archD.table_id = some table ∧
        entity_removals exWorld 10 4 archD table ⟨24, 0⟩ = .ok [] ∧
        collect_components
            (filter_component_candidate exWorld exRules 10 4 archD table ⟨24, 0⟩)
            archD.componentIds
          = .ok ec.changed_component_candidates :=
  @collect_candidates_tracker_absent exWorld exRules 10 4 exOut archD ⟨24, 0⟩
    rfl (by decide) (by decide) (by decide) (by decide)

/-- Witness for C6: message 12 of client 1 and message 15 of client 2 fail to
deserialize, are reported, and the remaining messages still go through; both
pending events serialize and are both sent. -/
theorem event_error_handling_witness :
    (receiving_system exDeser [(1, [3, 12, 4]), (2, [15, 6])]).1
      = [(1, [3, 12, 4]), (2, [15, 6])].flatMap (fun p =>
          p.2.filterMap (fun m => (exDeser m).map (fun ev => ⟨p.1, ev⟩))) ∧
    (receiving_system exDeser [(1, [3, 12, 4]), (2, [15, 6])]).2
      = [(1, [3, 12, 4]), (2, [15, 6])].flatMap (fun p =>
          p.2.filterMap (fun m =>
            match exDeser m with
            | some _ => none
            | none => some (p.1, m))) ∧
    sending_system exSer [5, 7] = .ok ([5, 7].filterMap exSer) :=
  event_error_handling exDeser [(1, [3, 12, 4]), (2, [15, 6])] exSer [5, 7]
    (by decide)

/-- Witness for C7: the candidate for entity 20 comes from `archA` — marked,
and neither the empty nor the invalid archetype. -/
theorem collect_candidates_visits_marked_witness :
    (∃ archetype ∈ exWorld.archetypes,
      archetype.id ≠ ARCHETYPE_EMPTY ∧ archetype.id ≠ ARCHETYPE_INVALID ∧
      archetype.contains exRules.get_marker_id = true ∧
      ∃ ae ∈ archetype.entities, ae.entity = exEC.entity) ∧
    ∀ e : Entity,
      (∀ archetype ∈ exWorld.archetypes, replicated_archetype exRules archetype = true →
        ∀ ae ∈ archetype.entities, ae.entity ≠ e) →
      exEC.entity ≠ e :=
  @collect_candidates_visits_marked exWorld exRules 10 4 exOut exEC rfl (by decide)

/-- Witness for C8: a two-event queue is mapped through the client→server
table `[(1, 100)]` before serialization and is drained. -/
theorem mapped_client_events_use_to_server_witness :
    mapping_and_sending_system (fun pairs e => (pairs.lookup e).getD e) some
        ⟨[(100, 1)], [(1, 100)]⟩ [1, 2]
      = .ok ([1, 2].filterMap (fun e =>
          some (((⟨[(100, 1)], [(1, 100)]⟩ : NetworkEntityMap).to_server.lookup e).getD e)), []) ∧
    mapping_and_sending_reflect_system (fun pairs e => (pairs.lookup e).getD e)
        (fun (_ : Unit) e => some e) ⟨[(100, 1)], [(1, 100)]⟩ () [1, 2]
      = .ok ([1, 2].filterMap (fun e =>
          some (((⟨[(100, 1)], [(1, 100)]⟩ : NetworkEntityMap).to_server.lookup e).getD e)), []) :=
  mapped_client_events_use_to_server (fun pairs e => (pairs.lookup e).getD e) some
    (fun (_ : Unit) e => some e) ⟨[(100, 1)], [(1, 100)]⟩ () [1, 2] [1, 2]
    (by intro e he; rfl) (by intro e he; rfl)

/-- Witness for C10: on `exWorld` the output rows are exactly entities 20 and
24 — including the empty row for 24. -/
theorem collect_candidates_one_per_entity_witness :
    exOut.map EntityCandidate.entity = scanned_entities exWorld exRules ∧
    exOut.length = (scanned_entities exWorld exRules).length :=
  @collect_candidates_one_per_entity exWorld exRules 10 4 exOut rfl

end Replicon
